import Mathlib

/- Verification of the momentum_gate_orb intraday trading engine.
   Prices, percentages and indicator values are modelled as rationals,
   share quantities as integers, Python None as Option.none, and pandas
   frames as lists of per-bar values in time-ascending order, so that
   iloc[-1] is the last element and iloc[-2] the one before it.  Engine
   dictionaries keyed by stock code are modelled as association lists
   with unique keys. -/

/-- Strategy configuration (config/loader.py, StrategyConfig).  Field defaults
mirror the loader defaults.  The attribute stop_loss_vwap_pct is read by
strategy/risk_manager.py but is not declared in loader.py; it is modelled here
as an optional configuration attribute, as the reading code expects it. -/
structure StrategyConfig where
  orb_timeframe : Nat := 15
  breakout_buffer : ℚ := 15/100
  ema_short_period : Nat := 9
  ema_long_period : Nat := 20
  rvol_period : Nat := 20
  rvol_threshold : ℚ := 150
  obi_threshold : ℚ := 3/2
  strength_threshold : ℚ := 100
  take_profit_pct : ℚ := 5/2
  stop_loss_pct : ℚ := -1
  partial_take_profit_pct : Option ℚ := some (3/2)
  partial_take_profit_ratio : ℚ := 2/5
  stop_loss_vwap_pct : Option ℚ := none
  investment_amount_per_stock : Int := 0
  max_concurrent_positions : Nat := 5
deriving DecidableEq

/-- Order-book imbalance (data/indicators.py, calculate_obi).  Ratio of total
bid volume to total ask volume; a non-positive ask volume yields the large
sentinel 1000.0 whatever the bid volume is; a missing input yields the unknown
sentinel. -/
def calculate_obi (total_bid_volume total_ask_volume : Option Int) : Option ℚ :=
  match total_bid_volume, total_ask_volume with
  | some bid, some ask =>
      if ask ≤ 0 then some 1000
      else some ((bid : ℚ) / (ask : ℚ))
  | _, _ => none

/-- Relative volume (data/indicators.py, calculate_rvol), over the list of the
frame volumes in time order.  previous_volumes is the slice iloc[-(w+1):-1].
The pandas mean of the empty slice is NaN and is sent by pd.isna to the
unknown sentinel; under the length guard that slice is empty only for
window = 0, where sum / (length cast to ℚ, namely 0) = 0 and the non-positive
guard fires, giving the same result. -/
def calculate_rvol (volumes : List ℚ) (window : Nat) : Option ℚ :=
  if volumes.length < window + 1 then none
  else
    let current_volume := volumes.getLastD 0
    let previous_volumes := (volumes.drop (volumes.length - (window + 1))).dropLast
    let avg_previous_volume := previous_volumes.sum / (previous_volumes.length : ℚ)
    if avg_previous_volume ≤ 0 then none
    else some (current_volume / avg_previous_volume * 100)

/-- The mean of the window volumes that precede the current bar, the current
bar excluded, as the specification describes the RVOL denominator. -/
def rvol_prev_mean (volumes : List ℚ) (window : Nat) : ℚ :=
  (volumes.dropLast.drop (volumes.dropLast.length - window)).sum / (window : ℚ)

/-- One OHLCV bar of a frame store (a row of the pandas frame, carrying the
bar timestamp that indexes it). -/
structure BarRow where
  ts : Int
  open_ : ℚ
  high : ℚ
  low : ℚ
  close : ℚ
  volume : ℚ
deriving DecidableEq

/-- A completed-candle event (data/manager.py): a dict any of whose six keys
may be missing. -/
structure Candle where
  time : Option Int
  open_ : Option ℚ
  high : Option ℚ
  low : Option ℚ
  close : Option ℚ
  volume : Option ℚ
deriving DecidableEq

/-- data/manager.py, update_ohlcv_with_candle: append the completed candle to
the frame, or overwrite the row already carrying its timestamp; a candle with
a missing key leaves the frame unchanged (an absent frame becomes empty). -/
def update_ohlcv_with_candle (df : Option (List BarRow)) (candle : Candle) :
    List BarRow :=
  match candle.time, candle.open_, candle.high, candle.low, candle.close,
      candle.volume with
  | some t, some o, some h, some l, some c, some v =>
      let new_row : BarRow := ⟨t, o, h, l, c, v⟩
      match df with
      | none => [new_row]
      | some rows =>
          if rows.isEmpty then [new_row]
          else if rows.any (fun r => r.ts == t) then
            rows.map (fun r => if r.ts = t then new_row else r)
          else rows ++ [new_row]
  | _, _, _, _, _, _ =>
      match df with
      | none => []
      | some rows => rows

/-- C7 counterexample: with both volumes zero, calculate_obi returns the large
sentinel 1000.0, not the unknown sentinel None that the claim requires. -/
theorem C7_obi_both_zero_counterexample :
    calculate_obi (some 0) (some 0) = some 1000
    ∧ calculate_obi (some 0) (some 0) ≠ none := by
  constructor <;> decide

/-- C7 (amended): calculate_obi returns the ratio bid/ask when the ask volume
is positive; any non-positive ask volume, the both-zero case included, yields
the large sentinel 1000.0, which is distinct from the unknown sentinel; the
unknown sentinel arises exactly when an input is missing. -/
theorem C7_obi_amended (bid ask : Int) :
    (0 < ask → calculate_obi (some bid) (some ask) = some ((bid : ℚ) / (ask : ℚ)))
    ∧ (ask ≤ 0 → calculate_obi (some bid) (some ask) = some 1000
        ∧ calculate_obi (some bid) (some ask) ≠ none)
    ∧ calculate_obi none (some ask) = none
    ∧ calculate_obi (some bid) none = none := by
  refine ⟨fun hpos => ?_, fun hle => ?_, rfl, rfl⟩
  · simp [calculate_obi, not_le.mpr hpos]
  · simp [calculate_obi, hle]

/-- dropLast commutes with drop. -/
theorem dropLast_drop_comm (l : List ℚ) (k : Nat) :
    (l.drop k).dropLast = l.dropLast.drop k := by
  rw [List.dropLast_eq_take, List.dropLast_eq_take, List.drop_take,
    List.length_drop]
  congr 1
  omega

/-- C8: calculate_rvol returns (current volume / mean of the preceding window
volumes, the current bar excluded) times 100 when the frame has at least
window + 1 rows and that mean is positive, and the unknown sentinel None
whenever the frame is shorter than window + 1 rows or the mean is not
positive. -/
theorem C8_rvol_spec (volumes : List ℚ) (window : Nat) :
    (window + 1 ≤ volumes.length → 0 < rvol_prev_mean volumes window →
        calculate_rvol volumes window
          = some (volumes.getLastD 0 / rvol_prev_mean volumes window * 100))
    ∧ (volumes.length < window + 1 ∨ rvol_prev_mean volumes window ≤ 0 →
        calculate_rvol volumes window = none) := by
  by_cases hlen : volumes.length < window + 1
  · refine ⟨fun hge _ => absurd hge (by omega), fun _ => ?_⟩
    simp [calculate_rvol, hlen]
  · push_neg at hlen
    have hprev : (volumes.drop (volumes.length - (window + 1))).dropLast
        = volumes.dropLast.drop (volumes.dropLast.length - window) := by
      rw [dropLast_drop_comm, List.length_dropLast]
      congr 1
      omega
    have hlenprev : ((volumes.drop (volumes.length - (window + 1))).dropLast).length
        = window := by
      rw [List.length_dropLast, List.length_drop]
      omega
    have havg : ((volumes.drop (volumes.length - (window + 1))).dropLast).sum
        / ((((volumes.drop (volumes.length - (window + 1))).dropLast).length : Nat) : ℚ)
        = rvol_prev_mean volumes window := by
      rw [hlenprev, hprev, rvol_prev_mean]
    constructor
    · intro _ hpos
      simp only [calculate_rvol, if_neg (by omega : ¬ volumes.length < window + 1)]
      rw [havg, if_neg (not_le.mpr hpos)]
    · rintro (h | h)
      · omega
      · simp only [calculate_rvol, if_neg (by omega : ¬ volumes.length < window + 1)]
        rw [havg, if_pos h]

/-- C6: over a frame with pairwise-distinct timestamps, update_ohlcv_with_candle
keeps the timestamps pairwise distinct; when a row with the candle timestamp
exists that row is overwritten with the candle values, otherwise exactly one
new row is appended. -/
theorem C6_append_or_replace_unique_timestamps (rows : List BarRow) (t : Int)
    (o h l c v : ℚ) (hdist : (rows.map BarRow.ts).Pairwise (· ≠ ·)) :
    ((update_ohlcv_with_candle (some rows)
        ⟨some t, some o, some h, some l, some c, some v⟩).map BarRow.ts).Pairwise (· ≠ ·)
    ∧ (t ∈ rows.map BarRow.ts →
        update_ohlcv_with_candle (some rows) ⟨some t, some o, some h, some l, some c, some v⟩
          = rows.map (fun r => if r.ts = t then ⟨t, o, h, l, c, v⟩ else r))
    ∧ (t ∉ rows.map BarRow.ts →
        update_ohlcv_with_candle (some rows) ⟨some t, some o, some h, some l, some c, some v⟩
          = rows ++ [⟨t, o, h, l, c, v⟩]) := by
  have hstep : update_ohlcv_with_candle (some rows)
      ⟨some t, some o, some h, some l, some c, some v⟩
      = if rows.isEmpty then [⟨t, o, h, l, c, v⟩]
        else if rows.any (fun r => r.ts == t) then
          rows.map (fun r => if r.ts = t then ⟨t, o, h, l, c, v⟩ else r)
        else rows ++ [⟨t, o, h, l, c, v⟩] := rfl
  have hany : (rows.any (fun r => r.ts == t)) = true ↔ t ∈ rows.map BarRow.ts := by
    simp only [List.any_eq_true, beq_iff_eq, List.mem_map]
  rcases eq_or_ne rows [] with hnil | hnonnil
  · subst hnil
    refine ⟨by simp [hstep], fun hmem => absurd hmem (by simp), fun _ => by simp [hstep]⟩
  · have hne : rows.isEmpty = false := by
      simpa [List.isEmpty_iff] using hnonnil
    by_cases hmem : t ∈ rows.map BarRow.ts
    · have ha : (rows.any (fun r => r.ts == t)) = true := hany.mpr hmem
      have hres : update_ohlcv_with_candle (some rows)
          ⟨some t, some o, some h, some l, some c, some v⟩
          = rows.map (fun r => if r.ts = t then ⟨t, o, h, l, c, v⟩ else r) := by
        rw [hstep, hne, ha]
        simp
      have hmapts : (rows.map (fun r => if r.ts = t then (⟨t, o, h, l, c, v⟩ : BarRow) else r)).map
          BarRow.ts = rows.map BarRow.ts := by
        rw [List.map_map]
        refine List.map_congr_left fun r _ => ?_
        by_cases hrt : r.ts = t
        · simp [hrt]
        · simp [hrt]
      exact ⟨by rw [hres, hmapts]; exact hdist, fun _ => hres,
        fun hnot => absurd hmem hnot⟩
    · have ha : (rows.any (fun r => r.ts == t)) = false := by
        rcases Bool.eq_false_or_eq_true (rows.any (fun r => r.ts == t)) with hf | ht
        · exact absurd (hany.mp hf) hmem
        · exact ht
      have hres : update_ohlcv_with_candle (some rows)
          ⟨some t, some o, some h, some l, some c, some v⟩
          = rows ++ [⟨t, o, h, l, c, v⟩] := by
        rw [hstep, hne, ha]
        simp
      refine ⟨?_, fun hm => absurd hm hmem, fun _ => hres⟩
      rw [hres, List.map_append]
      rw [List.pairwise_append]
      refine ⟨hdist, by simp, ?_⟩
      intro a hmemA b hmemB
      simp only [List.map_cons, List.map_nil, List.mem_singleton] at hmemB
      subst hmemB
      intro heq
      exact hmem (heq ▸ hmemA)

/-- C10: a completed-candle dict that lacks one of the six required keys
leaves the frame store unchanged (and yields the empty frame when the stored
frame is absent). -/
theorem C10_malformed_candle_noop (df : Option (List BarRow)) (candle : Candle)
    (hmiss : candle.time = none ∨ candle.open_ = none ∨ candle.high = none
      ∨ candle.low = none ∨ candle.close = none ∨ candle.volume = none) :
    update_ohlcv_with_candle df candle = df.getD [] := by
  obtain ⟨tm, op, hi, lo, cl, vo⟩ := candle
  rcases df with _ | rows <;>
    rcases tm with _ | t <;> rcases op with _ | o <;> rcases hi with _ | h <;>
    rcases lo with _ | l <;> rcases cl with _ | c <;> rcases vo with _ | v <;>
    simp_all [update_ohlcv_with_candle]

/-- C10 witness: a concrete candle missing the volume key leaves a concrete
one-row frame unchanged. -/
theorem C10_malformed_candle_noop_witness :
    (Candle.mk (some 1) (some 2) (some 3) (some 4) (some 5) none).volume = none
    ∧ update_ohlcv_with_candle (some [⟨0, 1, 1, 1, 1, 1⟩])
        ⟨some 1, some 2, some 3, some 4, some 5, none⟩ = [⟨0, 1, 1, 1, 1, 1⟩] :=
  ⟨rfl, C10_malformed_candle_noop (some [⟨0, 1, 1, 1, 1, 1⟩])
    ⟨some 1, some 2, some 3, some 4, some 5, none⟩ (by simp)⟩

/-- C6 witness: appending a candle with a fresh timestamp to a concrete
two-row frame appends exactly one new row. -/
theorem C6_append_or_replace_unique_timestamps_witness :
    (([⟨0, 1, 1, 1, 1, 1⟩, ⟨1, 2, 2, 2, 2, 2⟩] : List BarRow).map BarRow.ts).Pairwise (· ≠ ·)
    ∧ update_ohlcv_with_candle (some [⟨0, 1, 1, 1, 1, 1⟩, ⟨1, 2, 2, 2, 2, 2⟩])
        ⟨some 2, some 3, some 3, some 3, some 3, some 3⟩
      = [⟨0, 1, 1, 1, 1, 1⟩, ⟨1, 2, 2, 2, 2, 2⟩] ++ [⟨2, 3, 3, 3, 3, 3⟩] :=
  ⟨by decide,
    (C6_append_or_replace_unique_timestamps [⟨0, 1, 1, 1, 1, 1⟩, ⟨1, 2, 2, 2, 2, 2⟩]
      2 3 3 3 3 3 (by decide)).2.2 (by decide)⟩


/-- The last entry of an optional frame column whose entries may themselves be
NaN: pandas pd.isna sends a NaN last value to None, so entries are modelled as
Option values and a missing column gives None. -/
def latest_optcol (col : Option (List (Option ℚ))) : Option ℚ :=
  match col with
  | none => none
  | some l => l.getLastD none

/-- The last entry of an optional numeric frame column (the source applies no
NaN filter to these columns); None when the column is absent.  Columns are
parallel to the close column, so on a non-empty frame the default never
surfaces. -/
def latest_col (col : Option (List ℚ)) : Option ℚ :=
  col.map (fun l => l.getLastD 0)

/-- iloc[-2] of a numeric column: the last element once the final row is
dropped. -/
def iloc2 (l : List ℚ) : ℚ :=
  l.dropLast.getLastD 0

/-- The frame passed to check_breakout_signal (strategy/momentum_orb.py):
close plus the rvol, obi, EMA short/long and strength columns, each possibly
absent.  The EMA column pair stands for the two columns named from the
configured EMA periods. -/
structure SignalFrame where
  close : List ℚ
  rvol : Option (List (Option ℚ)) := none
  obi : Option (List (Option ℚ)) := none
  ema_short : Option (List ℚ) := none
  ema_long : Option (List ℚ) := none
  strength : Option (List (Option ℚ)) := none
deriving DecidableEq

/-- The ORB level Series (orh, orl) together with its pandas empty flag. -/
structure OrbLevels where
  empty : Bool := false
  orh : Option ℚ := none
  orl : Option ℚ := none
deriving DecidableEq

/-- RVOL filter of check_breakout_signal: defined and at least the
threshold. -/
def rvol_ok (cfg : StrategyConfig) (df : SignalFrame) : Bool :=
  match latest_optcol df.rvol with
  | some r => decide (cfg.rvol_threshold ≤ r)
  | none => false

/-- OBI filter of check_breakout_signal: defined and at least the
threshold. -/
def obi_ok (cfg : StrategyConfig) (df : SignalFrame) : Bool :=
  match latest_optcol df.obi with
  | some b => decide (cfg.obi_threshold ≤ b)
  | none => false

/-- EMA trend filter of check_breakout_signal: both EMAs defined and the
short one strictly above the long one. -/
def momentum_ok (df : SignalFrame) : Bool :=
  match latest_col df.ema_short, latest_col df.ema_long with
  | some s, some l => decide (l < s)
  | _, _ => false

/-- Strength filter of check_breakout_signal: defined and at least the
threshold. -/
def strength_ok (cfg : StrategyConfig) (df : SignalFrame) : Bool :=
  match latest_optcol df.strength with
  | some st => decide (cfg.strength_threshold ≤ st)
  | none => false

/-- strategy/momentum_orb.py, check_breakout_signal: BUY only when the close
of the latest bar strictly exceeds orh grown by the breakout buffer and the
RVOL, OBI, EMA-trend and strength filters all pass; any unknown indicator
fails its filter. -/
def check_breakout_signal (cfg : StrategyConfig) (df : SignalFrame)
    (orb_levels : OrbLevels) : String :=
  if df.close.isEmpty || orb_levels.empty then "HOLD"
  else
    match orb_levels.orh, orb_levels.orl with
    | some orh, some _orl =>
        if ¬ (orh * (1 + cfg.breakout_buffer / 100) < df.close.getLastD 0) then
          "HOLD"
        else if rvol_ok cfg df && obi_ok cfg df && momentum_ok df
            && strength_ok cfg df then "BUY"
        else "HOLD"
    | _, _ => "HOLD"

/-- rvol_ok holds exactly when the latest RVOL is defined and reaches the
threshold. -/
theorem rvol_ok_iff (cfg : StrategyConfig) (df : SignalFrame) :
    rvol_ok cfg df = true ↔ ∃ r, latest_optcol df.rvol = some r ∧ cfg.rvol_threshold ≤ r := by
  unfold rvol_ok
  rcases h : latest_optcol df.rvol with _ | r <;> simp [h]

/-- obi_ok holds exactly when the latest OBI is defined and reaches the
threshold. -/
theorem obi_ok_iff (cfg : StrategyConfig) (df : SignalFrame) :
    obi_ok cfg df = true ↔ ∃ b, latest_optcol df.obi = some b ∧ cfg.obi_threshold ≤ b := by
  unfold obi_ok
  rcases h : latest_optcol df.obi with _ | b <;> simp [h]

/-- momentum_ok holds exactly when both EMAs are defined and the short EMA is
strictly above the long EMA. -/
theorem momentum_ok_iff (df : SignalFrame) :
    momentum_ok df = true ↔ ∃ s l, latest_col df.ema_short = some s
      ∧ latest_col df.ema_long = some l ∧ l < s := by
  unfold momentum_ok
  rcases hs : latest_col df.ema_short with _ | s <;>
    rcases hl : latest_col df.ema_long with _ | l <;> simp [hs, hl]

/-- strength_ok holds exactly when the latest strength is defined and reaches
the threshold. -/
theorem strength_ok_iff (cfg : StrategyConfig) (df : SignalFrame) :
    strength_ok cfg df = true ↔ ∃ st, latest_optcol df.strength = some st
      ∧ cfg.strength_threshold ≤ st := by
  unfold strength_ok
  rcases h : latest_optcol df.strength with _ | st <;> simp [h]


/-- C4: check_breakout_signal answers BUY only when every entry condition
holds on the latest bar (strict breakout above the buffered orh, RVOL defined
and at least its threshold, OBI defined and at least its threshold, both EMAs
defined with the short one above the long one, strength defined and at least
its threshold); whenever one of these indicators is unknown the answer is
HOLD. -/
theorem C4_breakout_requires_all_filters (cfg : StrategyConfig)
    (df : SignalFrame) (orb_levels : OrbLevels) :
    (check_breakout_signal cfg df orb_levels = "BUY" →
        (∃ orh, orb_levels.orh = some orh
            ∧ orh * (1 + cfg.breakout_buffer / 100) < df.close.getLastD 0)
        ∧ (∃ r, latest_optcol df.rvol = some r ∧ cfg.rvol_threshold ≤ r)
        ∧ (∃ b, latest_optcol df.obi = some b ∧ cfg.obi_threshold ≤ b)
        ∧ (∃ s l, latest_col df.ema_short = some s ∧ latest_col df.ema_long = some l
            ∧ l < s)
        ∧ (∃ st, latest_optcol df.strength = some st ∧ cfg.strength_threshold ≤ st))
    ∧ ((latest_optcol df.rvol = none ∨ latest_optcol df.obi = none
          ∨ latest_col df.ema_short = none ∨ latest_col df.ema_long = none
          ∨ latest_optcol df.strength = none) →
        check_breakout_signal cfg df orb_levels = "HOLD") := by
  have hnotbuy : ∀ hall : (rvol_ok cfg df && obi_ok cfg df && momentum_ok df
      && strength_ok cfg df) = false,
      check_breakout_signal cfg df orb_levels = "HOLD" := by
    intro hall
    unfold check_breakout_signal
    rcases orb_levels with ⟨oempty, oorh, oorl⟩
    by_cases hempty : (df.close.isEmpty || oempty) = true
    · rw [if_pos hempty]
    · rw [if_neg hempty]
      rcases oorh with _ | orh
      · rfl
      rcases oorl with _ | orl
      · rfl
      dsimp only
      by_cases hbreak : orh * (1 + cfg.breakout_buffer / 100) < df.close.getLastD 0
      · rw [if_neg (not_not_intro hbreak), hall]
        simp
      · rw [if_pos hbreak]
  constructor
  · intro hbuy
    have hall : (rvol_ok cfg df && obi_ok cfg df && momentum_ok df
        && strength_ok cfg df) = true := by
      rcases Bool.eq_false_or_eq_true (rvol_ok cfg df && obi_ok cfg df
        && momentum_ok df && strength_ok cfg df) with ht | hf
      · exact ht
      · rw [hnotbuy hf] at hbuy
        exact absurd hbuy (by decide)
    have hparts := hall
    simp only [Bool.and_eq_true] at hparts
    obtain ⟨⟨⟨hrv, hob⟩, hmo⟩, hst⟩ := hparts
    have hbreakorh : ∃ orh, orb_levels.orh = some orh
        ∧ orh * (1 + cfg.breakout_buffer / 100) < df.close.getLastD 0 := by
      unfold check_breakout_signal at hbuy
      rcases orb_levels with ⟨oempty, oorh, oorl⟩
      by_cases hempty : (df.close.isEmpty || oempty) = true
      · rw [if_pos hempty] at hbuy
        exact absurd hbuy (by decide)
      · rw [if_neg hempty] at hbuy
        rcases oorh with _ | orh
        · simp at hbuy
        rcases oorl with _ | orl
        · simp at hbuy
        dsimp only at hbuy ⊢
        by_cases hbreak : orh * (1 + cfg.breakout_buffer / 100) < df.close.getLastD 0
        · exact ⟨orh, rfl, hbreak⟩
        · rw [if_pos hbreak] at hbuy
          exact absurd hbuy (by decide)
    exact ⟨hbreakorh, (rvol_ok_iff cfg df).mp hrv, (obi_ok_iff cfg df).mp hob,
      (momentum_ok_iff df).mp hmo, (strength_ok_iff cfg df).mp hst⟩
  · intro hunk
    refine hnotbuy ?_
    rcases hunk with h | h | h | h | h
    · simp [rvol_ok, h]
    · simp [rvol_ok, obi_ok, h]
    · simp [momentum_ok, h, Bool.and_eq_false_iff]
    · simp only [momentum_ok, h]
      rcases latest_col df.ema_short with _ | s <;> simp
    · simp [strength_ok, h, Bool.and_eq_false_iff]

/-- A position record of the engine ledger (the positions dict of
core/engine.py, also the position argument of strategy/risk_manager.py).
Absent dict keys are modelled by the defaults the reading code supplies to
.get, and optional values by Option.  partial_profit_pct is doubly optional:
the key may be absent (fall back to the configuration) or present and None. -/
structure Position where
  stk_cd : String := ""
  status : String := ""
  order_no : Option String := none
  original_order_qty : Int := 0
  filled_qty : Int := 0
  filled_value : ℚ := 0
  entry_price : Option ℚ := none
  entry_time : Option Nat := none
  size : Int := 0
  exit_signal : Option String := none
  original_size_before_exit : Int := 0
  partial_profit_taken : Bool := false
  target_profit_pct : Option ℚ := none
  stop_loss_pct : Option ℚ := none
  partial_profit_pct : Option (Option ℚ) := none
deriving DecidableEq

/-- The frame passed to manage_position (strategy/risk_manager.py): close plus
the optional EMA short/long and vwap columns, all parallel in length to
close. -/
structure RiskFrame where
  close : List ℚ
  ema_short : Option (List ℚ) := none
  ema_long : Option (List ℚ) := none
  vwap : Option (List ℚ) := none
deriving DecidableEq

/-- strategy/risk_manager.py lines 82-105: the VWAP break exit checks, reached
when no earlier rule fired.  With a configured stop_loss_vwap_pct the break is
tested against the VWAP trigger (a zero latest VWAP is falsy in the source and
disables that branch); without the configuration it is tested against VWAP
itself. -/
def vwap_break_check (cfg : StrategyConfig) (df : RiskFrame)
    (current_price : ℚ) : Option String :=
  match cfg.stop_loss_vwap_pct, df.vwap with
  | some pct, some wcol =>
      if wcol.getLastD 0 ≠ 0
          ∧ current_price < wcol.getLastD 0 * (1 - pct / 100)
          ∧ (df.close.length ≤ 1 ∨ iloc2 wcol * (1 - pct / 100) ≤ iloc2 df.close) then
        some "VWAP_BREAK_SELL"
      else none
  | some _, none => none
  | none, some wcol =>
      if current_price < wcol.getLastD 0
          ∧ (df.close.length ≤ 1 ∨ iloc2 wcol ≤ iloc2 df.close) then
        some "VWAP_BREAK_SELL"
      else none
  | none, none => none

/-- strategy/risk_manager.py lines 69-105: the EMA dead-cross check (falling
through to the VWAP checks when the cross is not fresh or a column is
absent). -/
def ema_vwap_checks (cfg : StrategyConfig) (df : RiskFrame)
    (current_price : ℚ) : Option String :=
  match df.ema_short, df.ema_long with
  | some scol, some lcol =>
      if scol.getLastD 0 < lcol.getLastD 0
          ∧ (df.close.length ≤ 1 ∨ iloc2 lcol ≤ iloc2 scol) then
        some "EMA_CROSS_SELL"
      else vwap_break_check cfg df current_price
  | _, _ => vwap_break_check cfg df current_price

/-- strategy/risk_manager.py, manage_position: exit rules for a held position
in source order: partial take-profit first, then full take-profit, stop-loss,
EMA dead cross, VWAP break.  The risk percentages are read from the position
with the live configuration as fallback; an absent or zero entry price
disables all rules (Python falsiness of entry_price). -/
def manage_position (cfg : StrategyConfig) (position : Option Position)
    (df : RiskFrame) : Option String :=
  match position with
  | none => none
  | some pos =>
      if df.close.isEmpty then none
      else
        match pos.entry_price with
        | none => none
        | some entry_price =>
            if entry_price = 0 then none
            else
              let TAKE_PROFIT_PCT := pos.target_profit_pct.getD cfg.take_profit_pct
              let STOP_LOSS_PCT := pos.stop_loss_pct.getD cfg.stop_loss_pct
              let PARTIAL_TAKE_PROFIT_PCT :=
                pos.partial_profit_pct.getD cfg.partial_take_profit_pct
              let current_price := df.close.getLastD 0
              let profit_pct := (current_price - entry_price) / entry_price * 100
              if PARTIAL_TAKE_PROFIT_PCT.isSome ∧ pos.partial_profit_taken = false
                  ∧ PARTIAL_TAKE_PROFIT_PCT.getD 0 ≤ profit_pct then
                some "PARTIAL_TAKE_PROFIT"
              else if TAKE_PROFIT_PCT ≤ profit_pct then some "TAKE_PROFIT"
              else if profit_pct ≤ STOP_LOSS_PCT then some "STOP_LOSS"
              else ema_vwap_checks cfg df current_price

/-- A configuration with the loader defaults, for concrete scenarios. -/
def demo_cfg : StrategyConfig := {}

/-- A held position whose locked partial and full profit targets are both
reached at a close of 110 against an entry of 100. -/
def demo_pos_both : Position :=
  { stk_cd := "005930", status := "IN_POSITION", entry_price := some 100,
    size := 10, partial_profit_taken := false,
    target_profit_pct := some (5/2), stop_loss_pct := some (-1),
    partial_profit_pct := some (some (3/2)) }

/-- manage_position on a live position (non-empty frame, non-zero entry
price) is the first-match chain partial take-profit, take-profit, stop-loss,
then the EMA and VWAP checks. -/
theorem manage_position_unfold (cfg : StrategyConfig) (pos : Position)
    (df : RiskFrame) (entry_price : ℚ)
    (hentry : pos.entry_price = some entry_price) (hnz : entry_price ≠ 0)
    (hclose : df.close ≠ []) :
    manage_position cfg (some pos) df
      = (if (pos.partial_profit_pct.getD cfg.partial_take_profit_pct).isSome
            ∧ pos.partial_profit_taken = false
            ∧ (pos.partial_profit_pct.getD cfg.partial_take_profit_pct).getD 0
                ≤ (df.close.getLastD 0 - entry_price) / entry_price * 100 then
          some "PARTIAL_TAKE_PROFIT"
        else if pos.target_profit_pct.getD cfg.take_profit_pct
            ≤ (df.close.getLastD 0 - entry_price) / entry_price * 100 then
          some "TAKE_PROFIT"
        else if (df.close.getLastD 0 - entry_price) / entry_price * 100
            ≤ pos.stop_loss_pct.getD cfg.stop_loss_pct then
          some "STOP_LOSS"
        else ema_vwap_checks cfg df (df.close.getLastD 0)) := by
  have hclosebool : df.close.isEmpty = false := by
    simpa [List.isEmpty_iff] using hclose
  simp only [manage_position, hentry, hclosebool, Bool.false_eq_true, if_false,
    if_neg hnz]

/-- C1 counterexample: when the profit simultaneously reaches the locked
partial target and the locked full target with partial_profit_taken false,
manage_position returns PARTIAL_TAKE_PROFIT, not the TAKE_PROFIT the claim
requires. -/
theorem C1_simultaneous_targets_counterexample :
    manage_position demo_cfg (some demo_pos_both) ⟨[110], none, none, none⟩
      = some "PARTIAL_TAKE_PROFIT"
    ∧ manage_position demo_cfg (some demo_pos_both) ⟨[110], none, none, none⟩
      ≠ some "TAKE_PROFIT" := by
  have h := manage_position_unfold demo_cfg demo_pos_both ⟨[110], none, none, none⟩
    100 rfl (by norm_num) (by simp)
  rw [h, if_pos]
  · exact ⟨rfl, by simp⟩
  · refine ⟨rfl, rfl, ?_⟩
    show (3 : ℚ)/2 ≤ ((110 : ℚ) - 100) / 100 * 100
    norm_num

/-- C1 (amended): the exit rules are a first-match priority list in the code
order, with PARTIAL_TAKE_PROFIT checked first and TAKE_PROFIT checked second,
before STOP_LOSS, EMA_CROSS_SELL and VWAP_BREAK_SELL: whenever the partial
rule is armed and reached it wins outright, and whenever the partial rule does
not fire (already taken, undefined, or not reached) a reached full target
yields TAKE_PROFIT regardless of the EMA and VWAP columns. -/
theorem C1_exit_priority_amended (cfg : StrategyConfig) (pos : Position)
    (df : RiskFrame) (entry_price : ℚ)
    (hentry : pos.entry_price = some entry_price) (hnz : entry_price ≠ 0)
    (hclose : df.close ≠ []) :
    (∀ ppct, pos.partial_profit_pct.getD cfg.partial_take_profit_pct = some ppct →
        pos.partial_profit_taken = false →
        ppct ≤ (df.close.getLastD 0 - entry_price) / entry_price * 100 →
        manage_position cfg (some pos) df = some "PARTIAL_TAKE_PROFIT")
    ∧ (pos.partial_profit_taken = true →
        pos.target_profit_pct.getD cfg.take_profit_pct
            ≤ (df.close.getLastD 0 - entry_price) / entry_price * 100 →
        manage_position cfg (some pos) df = some "TAKE_PROFIT")
    ∧ (pos.partial_profit_pct.getD cfg.partial_take_profit_pct = none →
        pos.target_profit_pct.getD cfg.take_profit_pct
            ≤ (df.close.getLastD 0 - entry_price) / entry_price * 100 →
        manage_position cfg (some pos) df = some "TAKE_PROFIT")
    ∧ (∀ ppct, pos.partial_profit_pct.getD cfg.partial_take_profit_pct = some ppct →
        (df.close.getLastD 0 - entry_price) / entry_price * 100 < ppct →
        pos.target_profit_pct.getD cfg.take_profit_pct
            ≤ (df.close.getLastD 0 - entry_price) / entry_price * 100 →
        manage_position cfg (some pos) df = some "TAKE_PROFIT") := by
  have hu := manage_position_unfold cfg pos df entry_price hentry hnz hclose
  refine ⟨fun ppct hppct htaken hle => ?_, fun htaken hTP => ?_,
    fun hnone hTP => ?_, fun ppct hppct hlt hTP => ?_⟩
  · have hcond : (pos.partial_profit_pct.getD cfg.partial_take_profit_pct).isSome
        = true ∧ pos.partial_profit_taken = false
        ∧ (pos.partial_profit_pct.getD cfg.partial_take_profit_pct).getD 0
            ≤ (df.close.getLastD 0 - entry_price) / entry_price * 100 := by
      refine ⟨by rw [hppct]; rfl, htaken, ?_⟩
      rw [hppct]
      exact hle
    rw [hu, if_pos hcond]
  · have hcond : ¬ ((pos.partial_profit_pct.getD cfg.partial_take_profit_pct).isSome
        = true ∧ pos.partial_profit_taken = false
        ∧ (pos.partial_profit_pct.getD cfg.partial_take_profit_pct).getD 0
            ≤ (df.close.getLastD 0 - entry_price) / entry_price * 100) := by
      rintro ⟨_, h2, _⟩
      rw [htaken] at h2
      exact Bool.noConfusion h2
    rw [hu, if_neg hcond, if_pos hTP]
  · have hcond : ¬ ((pos.partial_profit_pct.getD cfg.partial_take_profit_pct).isSome
        = true ∧ pos.partial_profit_taken = false
        ∧ (pos.partial_profit_pct.getD cfg.partial_take_profit_pct).getD 0
            ≤ (df.close.getLastD 0 - entry_price) / entry_price * 100) := by
      rintro ⟨h1, _, _⟩
      rw [hnone] at h1
      exact Bool.noConfusion h1
    rw [hu, if_neg hcond, if_pos hTP]
  · have hcond : ¬ ((pos.partial_profit_pct.getD cfg.partial_take_profit_pct).isSome
        = true ∧ pos.partial_profit_taken = false
        ∧ (pos.partial_profit_pct.getD cfg.partial_take_profit_pct).getD 0
            ≤ (df.close.getLastD 0 - entry_price) / entry_price * 100) := by
      rintro ⟨_, _, h3⟩
      rw [hppct] at h3
      exact absurd h3 (not_le.mpr hlt)
    rw [hu, if_neg hcond, if_pos hTP]

/-- C1 witness: the amended priority applied at the concrete counterexample
input yields PARTIAL_TAKE_PROFIT. -/
theorem C1_exit_priority_witness :
    manage_position demo_cfg (some demo_pos_both) ⟨[110], none, none, none⟩
      = some "PARTIAL_TAKE_PROFIT" :=
  (C1_exit_priority_amended demo_cfg demo_pos_both ⟨[110], none, none, none⟩ 100
    rfl (by norm_num) (by simp)).1 (3/2) rfl rfl
    (show (3 : ℚ)/2 ≤ ((110 : ℚ) - 100) / 100 * 100 by norm_num)

/-- Dict item update at a key (a no-op when the key is absent); with unique
keys this is the Python assignment positions[code] = f value. -/
def dict_update (positions : List (String × Position)) (code : String)
    (f : Position → Position) : List (String × Position) :=
  positions.map (fun cp => if cp.1 = code then (cp.1, f cp.2) else cp)

/-- Dict pop of a key. -/
def dict_pop (positions : List (String × Position)) (code : String) :
    List (String × Position) :=
  positions.filter (fun cp => cp.1 != code)

/-- Dict lookup of a key. -/
def dict_get (positions : List (String × Position)) (code : String) :
    Option Position :=
  (positions.find? (fun cp => cp.1 == code)).map Prod.snd

/-- Dict item assignment: replace the value at the key, or append a fresh
entry when the key is new. -/
def dict_set (positions : List (String × Position)) (code : String)
    (p : Position) : List (String × Position) :=
  if (positions.find? (fun cp => cp.1 == code)).isSome then
    dict_update positions code (fun _ => p)
  else positions ++ [(code, p)]

/-- core/engine.py, _process_execution_update: the order-update (TR 00)
handler, restricted to its effect on the position ledger (logging and the
realtime unsubscription are outside the model; string parsing and symbol
normalisation happen upstream of the modelled lines).  The position is found
by pending order number, with a fallback to an IN_POSITION or
ERROR_LIQUIDATION position stored under the stock code. -/
def process_execution_update (now : Nat) (positions : List (String × Position))
    (order_no stock_code order_status : String) (exec_qty : Int)
    (exec_price : ℚ) (unfilled_qty : Int) : List (String × Position) :=
  let found :=
    match positions.find? (fun cp => cp.2.order_no == some order_no) with
    | some cp => some cp
    | none =>
        match dict_get positions stock_code with
        | some pos =>
            if pos.status = "IN_POSITION" ∨ pos.status = "ERROR_LIQUIDATION" then
              some (stock_code, pos)
            else none
        | none => none
  match found with
  | none => positions
  | some (target_code, pos) =>
      if pos.status = "PENDING_ENTRY" then
        if order_status = "체결" ∧ 0 < exec_qty ∧ 0 < exec_price then
          let filled_qty := pos.filled_qty + exec_qty
          let filled_value := pos.filled_value + (exec_qty : ℚ) * exec_price
          if unfilled_qty = 0 then
            let entry_price :=
              if 0 < filled_qty then filled_value / (filled_qty : ℚ) else 0
            dict_update positions target_code (fun _ =>
              { pos with filled_qty := filled_qty, filled_value := filled_value,
                         status := "IN_POSITION", entry_price := some entry_price,
                         entry_time := some now, size := filled_qty })
          else
            dict_update positions target_code (fun _ =>
              { pos with filled_qty := filled_qty, filled_value := filled_value })
        else if order_status = "취소" ∨ order_status = "거부"
            ∨ order_status = "확인" then
          dict_pop positions target_code
        else positions
      else if pos.status = "PENDING_EXIT" then
        if order_status = "체결" ∧ 0 < exec_qty ∧ 0 < exec_price then
          let filled_qty := pos.filled_qty + exec_qty
          let filled_value := pos.filled_value + (exec_qty : ℚ) * exec_price
          if unfilled_qty = 0 then
            dict_pop positions target_code
          else
            dict_update positions target_code (fun _ =>
              { pos with filled_qty := filled_qty, filled_value := filled_value })
        else if order_status = "취소" ∨ order_status = "거부"
            ∨ order_status = "확인" then
          let remaining_size_after_cancel :=
            pos.original_size_before_exit - pos.filled_qty
          if 0 < unfilled_qty ∧ 0 < remaining_size_after_cancel then
            dict_update positions target_code (fun _ =>
              { pos with status := "IN_POSITION",
                         size := remaining_size_after_cancel, order_no := none })
          else dict_pop positions target_code
        else positions
      else positions

/-- The PENDING_ENTRY position of the C2 scenario: a buy of 100 shares with
30 already filled for an accumulated value of 300000. -/
def demo_entry_pos : Position :=
  { stk_cd := "005930", status := "PENDING_ENTRY", order_no := some "0001",
    original_order_qty := 100, filled_qty := 30, filled_value := 300000 }

/-- C2: an order update reporting cancel for a PENDING_ENTRY position whose
accumulated filled quantity is 30 (positive) removes the position from the
ledger entirely, instead of downgrading it to IN_POSITION with size 30 and
entry_price from the accumulators as the claim requires. -/
theorem C2_entry_cancel_after_partial_fill_bug :
    process_execution_update 0 [("005930", demo_entry_pos)] "0001" "005930"
      "취소" 0 0 70 = []
    ∧ demo_entry_pos.filled_qty = 30 := by
  constructor <;> decide

/-- core/engine.py, _process_balance_update: the balance (TR 04) handler,
restricted to its effect on the position ledger.  The branch structure is the
source if/elif chain; the final removal branch also names IN_POSITION and
PENDING_EXIT, but those states are already consumed by the first branch. -/
def process_balance_update (now : Nat) (positions : List (String × Position))
    (account_no stock_code : String) (current_size : Int) (avg_price : ℚ) :
    List (String × Position) :=
  if account_no = "" then positions
  else
    match dict_get positions stock_code with
    | some pos =>
        if pos.status = "IN_POSITION" ∨ pos.status = "PENDING_EXIT" then
          let positions1 :=
            if pos.size ≠ current_size then
              dict_update positions stock_code (fun p => { p with size := current_size })
            else positions
          if pos.status = "PENDING_EXIT" ∧ current_size = 0 then
            dict_pop positions1 stock_code
          else positions1
        else if (pos.status = "IN_POSITION" ∨ pos.status = "PENDING_EXIT"
            ∨ pos.status = "ERROR_LIQUIDATION") ∧ current_size = 0 then
          dict_pop positions stock_code
        else positions
    | none =>
        if 0 < current_size then
          dict_set positions stock_code
            { stk_cd := stock_code, entry_price := some avg_price,
              size := current_size, status := "IN_POSITION",
              entry_time := some now, filled_qty := current_size,
              filled_value := avg_price * (current_size : ℚ) }
        else positions

/-- The IN_POSITION position of the C5 scenario: 50 shares held at entry
price 10000. -/
def demo_held_pos : Position :=
  { stk_cd := "000660", status := "IN_POSITION", entry_price := some 10000,
    size := 50, entry_time := some 0 }

/-- C5: a balance update reporting held size 0 for an IN_POSITION position of
size 50 resizes the position to 0 and keeps it in the ledger (every other
field, entry_price included, unchanged), instead of closing it as the claim
requires; the removal branch of the source is unreachable for IN_POSITION. -/
theorem C5_balance_zero_keeps_in_position_bug :
    process_balance_update 0 [("000660", demo_held_pos)] "80123456" "000660" 0 0
      = [("000660", { demo_held_pos with size := 0 })]
    ∧ dict_get (process_balance_update 0 [("000660", demo_held_pos)] "80123456"
        "000660" 0 0) "000660" ≠ none := by
  constructor <;> decide

/-- core/engine.py, calculate_order_quantity: the number of shares to buy
from the configured per-stock investment amount, guarded by the fetched
available cash.  fetch is the parsed ord_alow_amt of the balance RPC: None
models a failed call, a missing key or an unparsable amount. -/
def calculate_order_quantity (investment_amount_per_stock : Int)
    (fetch : Option Int) (current_price : ℚ) : Int :=
  if investment_amount_per_stock ≤ 0 then 0
  else
    match fetch with
    | none => 0
    | some available_cash =>
        if available_cash < investment_amount_per_stock then 0
        else if current_price ≤ 0 then 0
        else Int.floor ((investment_amount_per_stock : ℚ) / current_price)

/-- The ledger entry created on buy-order acceptance (core/engine.py,
process_single_stock_tick lines 857-861). -/
def pending_entry_pos (stock_code order_no : String) (order_qty : Int) :
    Position :=
  { stk_cd := stock_code, status := "PENDING_ENTRY", order_no := some order_no,
    original_order_qty := order_qty, filled_qty := 0, filled_value := 0 }

/-- Result of the entry attempt: whether a buy order was sent, and the ledger
afterwards. -/
structure EntryResult where
  order_issued : Bool
  positions : List (String × Position)
deriving DecidableEq

/-- core/engine.py, process_single_stock_tick lines 844-864: once the entry
rule has passed, compute the order quantity and, when it is positive, send a
buy-market order through the gateway (buy answers the order number on
acceptance, None on failure) and record the PENDING_ENTRY position. -/
def entry_order_flow (buy : String → Int → Option String)
    (positions : List (String × Position)) (stock_code : String)
    (investment_amount_per_stock : Int) (fetch : Option Int)
    (current_price : ℚ) : EntryResult :=
  let order_qty :=
    calculate_order_quantity investment_amount_per_stock fetch current_price
  if 0 < order_qty then
    match buy stock_code order_qty with
    | some order_no =>
        ⟨true, dict_set positions stock_code
          (pending_entry_pos stock_code order_no order_qty)⟩
    | none => ⟨true, positions⟩
  else ⟨false, positions⟩

/-- The gateway acceptance used in concrete scenarios: every order gets an
order number derived from the stock code. -/
def demo_buy : String → Int → Option String := fun code _ => some (code ++ "-B1")

/-- C9 counterexample: with investment 1000000, fetched cash 500000 and close
10000, the computed quantity is 0 and no buy order is sent, although the
integer floor of investment / close is 100 > 0, contradicting the claim. -/
theorem C9_order_quantity_counterexample :
    calculate_order_quantity 1000000 (some 500000) (10000 : ℚ) = 0
    ∧ Int.floor ((1000000 : ℚ) / (10000 : ℚ)) = 100
    ∧ (entry_order_flow demo_buy [] "005930" 1000000 (some 500000)
        (10000 : ℚ)).order_issued = false := by
  refine ⟨by decide, ?_, by decide⟩
  rw [show ((1000000 : ℚ) / (10000 : ℚ)) = ((100 : Int) : ℚ) by norm_num]
  exact Int.floor_intCast 100

/-- C9 (amended): when the configured investment amount is positive, the cash
fetch succeeds with at least that amount and the close is positive, the order
quantity is the integer floor of investment / close; a buy-market order is
sent exactly when that quantity is positive, and on acceptance the position
enters PENDING_ENTRY with original_order_qty set to the quantity and both
fill accumulators zero. -/
theorem C9_order_quantity_amended (buy : String → Int → Option String)
    (positions : List (String × Position)) (stock_code : String)
    (investment cash : Int) (price : ℚ)
    (hinv : 0 < investment) (hcash : investment ≤ cash) (hprice : 0 < price) :
    calculate_order_quantity investment (some cash) price
      = Int.floor ((investment : ℚ) / price)
    ∧ (entry_order_flow buy positions stock_code investment (some cash)
        price).order_issued = decide (0 < Int.floor ((investment : ℚ) / price))
    ∧ (∀ order_no, 0 < Int.floor ((investment : ℚ) / price) →
        buy stock_code (Int.floor ((investment : ℚ) / price)) = some order_no →
        (entry_order_flow buy positions stock_code investment (some cash)
            price).positions
          = dict_set positions stock_code
              (pending_entry_pos stock_code order_no
                (Int.floor ((investment : ℚ) / price))))
    ∧ (Int.floor ((investment : ℚ) / price) ≤ 0 →
        (entry_order_flow buy positions stock_code investment (some cash)
            price).positions = positions) := by
  have hq : calculate_order_quantity investment (some cash) price
      = Int.floor ((investment : ℚ) / price) := by
    simp only [calculate_order_quantity, if_neg (not_le.mpr hinv),
      if_neg (not_lt.mpr hcash), if_neg (not_le.mpr hprice)]
  refine ⟨hq, ?_, fun order_no hqpos hbuy => ?_, fun hqle => ?_⟩
  · simp only [entry_order_flow, hq]
    by_cases hpos : 0 < Int.floor ((investment : ℚ) / price)
    · rw [if_pos hpos]
      rcases hb : buy stock_code (Int.floor ((investment : ℚ) / price))
        with _ | onum <;> simp [hb, hpos]
    · rw [if_neg hpos]
      simp [hpos]
  · simp only [entry_order_flow, hq]
    rw [if_pos hqpos, hbuy]
  · simp only [entry_order_flow, hq]
    rw [if_neg (not_lt.mpr hqle)]

/-- C9 witness: the amended rule at investment 1000000, cash 2000000 and
close 10050 gives a quantity of 99 shares. -/
theorem C9_order_quantity_witness :
    (0 : Int) < 1000000
    ∧ calculate_order_quantity 1000000 (some 2000000) (10050 : ℚ) = 99 :=
  ⟨by decide,
    (C9_order_quantity_amended demo_buy [] "005930" 1000000 2000000 10050
      (by decide) (by decide) (by norm_num)).1.trans
      (by norm_num [Int.floor_eq_iff])⟩

/-- The PENDING_EXIT fields written on kill-switch liquidation acceptance
(core/engine.py, execute_kill_switch). -/
def kill_update (p : Position) (order_no : String) (quantity : Int) : Position :=
  { p with status := "PENDING_EXIT", order_no := some order_no,
           exit_signal := some "KILL_SWITCH",
           original_size_before_exit := quantity,
           filled_qty := 0, filled_value := 0 }

/-- Outcome of one liquidation attempt on the stored position: a rejected
sell order only marks the position ERROR_LIQUIDATION, an accepted one moves
it to PENDING_EXIT with the kill-switch bookkeeping. -/
def kill_outcome (sell : String → Int → Option String) (code : String)
    (quantity : Int) (p : Position) : Position :=
  match sell code quantity with
  | none => { p with status := "ERROR_LIQUIDATION" }
  | some order_no => kill_update p order_no quantity

/-- The per-entry outcome of the kill switch when the sold quantity is the
entry size. -/
def kill_step (sell : String → Int → Option String) (code : String)
    (p : Position) : Position :=
  kill_outcome sell code p.size p

/-- core/engine.py, execute_kill_switch lines 976-1000: the liquidation loop
over a snapshot of the ledger.  Every snapshot entry that is IN_POSITION with
positive size gets one sell-market order for its full size and its stored
entry is updated by the outcome; every other entry is skipped.  sell answers
the order number on acceptance, None on failure. -/
def kill_switch_loop (sell : String → Int → Option String) :
    List (String × Position) → List (String × Position) →
    List (String × Position) × List (String × Int)
  | [], positions => (positions, [])
  | (stock_code, pos_info) :: rest, positions =>
      if pos_info.status = "IN_POSITION" ∧ 0 < pos_info.size then
        let quantity := pos_info.size
        let positions1 := dict_update positions stock_code
          (kill_outcome sell stock_code quantity)
        let r := kill_switch_loop sell rest positions1
        (r.1, (stock_code, quantity) :: r.2)
      else
        kill_switch_loop sell rest positions

/-- Engine state affected by the kill switch. -/
structure KillResult where
  engine_status : String
  stop_event : Bool
  positions : List (String × Position)
  orders : List (String × Int)
deriving DecidableEq

/-- core/engine.py, execute_kill_switch: refuse unless RUNNING; otherwise
mark the engine KILLED, set the stop event and run the liquidation loop over
a snapshot of the ledger, without waiting for any fill.  The pending-order
cancellation block of the source is a stub (fetch_pending_orders is commented
out and the list is empty), so it has no effect. -/
def execute_kill_switch (sell : String → Int → Option String)
    (engine_status : String) (stop_event : Bool)
    (positions : List (String × Position)) : KillResult :=
  if engine_status ≠ "RUNNING" then ⟨engine_status, stop_event, positions, []⟩
  else
    let r := kill_switch_loop sell positions positions
    ⟨"KILLED", true, r.1, r.2⟩

/-- dict_update is the identity when the key is absent. -/
theorem dict_update_not_mem (positions : List (String × Position))
    (code : String) (f : Position → Position)
    (h : code ∉ positions.map Prod.fst) :
    dict_update positions code f = positions := by
  induction positions with
  | nil => rfl
  | cons cp rest ih =>
      simp only [List.map_cons, List.mem_cons, not_or] at h
      show (if cp.1 = code then (cp.1, f cp.2) else cp) :: dict_update rest code f
        = cp :: rest
      rw [if_neg fun he => h.1 he.symm, ih h.2]

/-- The liquidation loop passes over a ledger entry whose key is not in the
snapshot. -/
theorem kill_switch_loop_cons (sell : String → Int → Option String)
    (snapshot : List (String × Position)) (x : String × Position)
    (positions : List (String × Position))
    (hx : x.1 ∉ snapshot.map Prod.fst) :
    kill_switch_loop sell snapshot (x :: positions)
      = ((x :: (kill_switch_loop sell snapshot positions).1),
         (kill_switch_loop sell snapshot positions).2) := by
  induction snapshot generalizing positions with
  | nil => rfl
  | cons cp rest ih =>
      obtain ⟨c, p⟩ := cp
      simp only [List.map_cons, List.mem_cons, not_or] at hx
      obtain ⟨hx1, hx2⟩ := hx
      simp only [kill_switch_loop]
      by_cases hcond : p.status = "IN_POSITION" ∧ 0 < p.size
      · rw [if_pos hcond, if_pos hcond]
        have hdu : dict_update (x :: positions) c (kill_outcome sell c p.size)
            = x :: dict_update positions c (kill_outcome sell c p.size) := by
          show (if x.1 = c then (x.1, kill_outcome sell c p.size x.2) else x)
              :: dict_update positions c (kill_outcome sell c p.size)
            = x :: dict_update positions c (kill_outcome sell c p.size)
          rw [if_neg hx1]
        rw [hdu, ih (dict_update positions c (kill_outcome sell c p.size)) hx2]
      · rw [if_neg hcond, if_neg hcond]
        exact ih positions hx2

/-- In a ledger with unique keys, membership determines the stored
position. -/
theorem key_unique (positions : List (String × Position)) (code : String)
    (p q : Position) (hnd : (positions.map Prod.fst).Nodup)
    (hp : (code, p) ∈ positions) (hq : (code, q) ∈ positions) : p = q := by
  induction positions with
  | nil => cases hp
  | cons cp rest ih =>
      rw [List.map_cons, List.nodup_cons] at hnd
      rcases List.mem_cons.mp hp with hp1 | hp1 <;>
        rcases List.mem_cons.mp hq with hq1 | hq1
      · subst hp1
        injection hq1 with _ h2
        exact h2.symm
      · subst hp1
        exact absurd (List.mem_map_of_mem Prod.fst hq1) hnd.1
      · subst hq1
        exact absurd (List.mem_map_of_mem Prod.fst hp1) hnd.1
      · exact ih hnd.2 hp1 hq1

/-- With unique keys, the kill-switch loop run over the ledger itself issues
one order per liquidatable entry, in ledger order, and rewrites exactly those
entries by their liquidation outcome. -/
theorem kill_switch_loop_spec (sell : String → Int → Option String)
    (positions : List (String × Position))
    (hnd : (positions.map Prod.fst).Nodup) :
    kill_switch_loop sell positions positions
      = (positions.map (fun cp =>
            if cp.2.status = "IN_POSITION" ∧ 0 < cp.2.size then
              (cp.1, kill_step sell cp.1 cp.2) else cp),
         positions.filterMap (fun cp =>
            if cp.2.status = "IN_POSITION" ∧ 0 < cp.2.size then
              some (cp.1, cp.2.size) else none)) := by
  induction positions with
  | nil => rfl
  | cons cp rest ih =>
      obtain ⟨c, p⟩ := cp
      rw [List.map_cons, List.nodup_cons] at hnd
      obtain ⟨hc, hnd2⟩ := hnd
      simp only [kill_switch_loop, List.map_cons, List.filterMap_cons]
      by_cases hcond : p.status = "IN_POSITION" ∧ 0 < p.size
      · rw [if_pos hcond, if_pos hcond, if_pos hcond]
        have hdu : dict_update ((c, p) :: rest) c (kill_outcome sell c p.size)
            = (c, kill_step sell c p) :: rest := by
          show (if c = c then (c, kill_outcome sell c p.size p) else (c, p))
              :: dict_update rest c (kill_outcome sell c p.size)
            = (c, kill_step sell c p) :: rest
          rw [if_pos rfl, dict_update_not_mem rest c _ hc]
          rfl
        rw [hdu, kill_switch_loop_cons sell rest (c, kill_step sell c p) rest hc,
          ih hnd2]
      · rw [if_neg hcond, if_neg hcond, if_neg hcond,
          kill_switch_loop_cons sell rest (c, p) rest hc, ih hnd2]

/-- C3: fired while the engine is RUNNING, the kill switch issues exactly one
sell-market order per IN_POSITION entry with positive size, each for the full
current size; entries in PENDING_ENTRY or PENDING_EXIT get no new order; a
position whose liquidation order is accepted moves to PENDING_EXIT with
exit_signal KILL_SWITCH and original_size_before_exit equal to the sold
quantity; and the engine leaves RUNNING (status KILLED, stop event set)
without waiting for fills. -/
theorem C3_kill_switch_behavior (sell : String → Int → Option String)
    (positions : List (String × Position))
    (hnd : (positions.map Prod.fst).Nodup) :
    (execute_kill_switch sell "RUNNING" false positions).orders
        = positions.filterMap (fun cp =>
            if cp.2.status = "IN_POSITION" ∧ 0 < cp.2.size then
              some (cp.1, cp.2.size) else none)
    ∧ (execute_kill_switch sell "RUNNING" false positions).positions
        = positions.map (fun cp =>
            if cp.2.status = "IN_POSITION" ∧ 0 < cp.2.size then
              (cp.1, kill_step sell cp.1 cp.2) else cp)
    ∧ (∀ code p, (code, p) ∈ positions →
        (p.status = "PENDING_ENTRY" ∨ p.status = "PENDING_EXIT") →
        ∀ q, (code, q) ∉ (execute_kill_switch sell "RUNNING" false positions).orders)
    ∧ (∀ code p order_no, (code, p) ∈ positions → p.status = "IN_POSITION" →
        0 < p.size → sell code p.size = some order_no →
        (code, kill_update p order_no p.size)
          ∈ (execute_kill_switch sell "RUNNING" false positions).positions)
    ∧ (execute_kill_switch sell "RUNNING" false positions).engine_status = "KILLED"
    ∧ (execute_kill_switch sell "RUNNING" false positions).engine_status ≠ "RUNNING"
    ∧ (execute_kill_switch sell "RUNNING" false positions).stop_event = true := by
  have hrun : execute_kill_switch sell "RUNNING" false positions
      = ⟨"KILLED", true, (kill_switch_loop sell positions positions).1,
         (kill_switch_loop sell positions positions).2⟩ := by
    simp only [execute_kill_switch, if_neg (not_not_intro rfl)]
  rw [hrun, kill_switch_loop_spec sell positions hnd]
  refine ⟨rfl, rfl, ?_, ?_, rfl,
    show ("KILLED" : String) ≠ "RUNNING" by decide, rfl⟩
  · intro code p hp hpend q hq
    simp only at hq
    rw [List.mem_filterMap] at hq
    obtain ⟨⟨c2, p2⟩, hcp, hcpeq⟩ := hq
    by_cases hcond : p2.status = "IN_POSITION" ∧ 0 < p2.size
    · rw [if_pos hcond] at hcpeq
      injection hcpeq with hpair
      have hfst : c2 = code := congrArg Prod.fst hpair
      subst hfst
      have hkey : p2 = p := key_unique positions c2 p2 p hnd hcp hp
      rcases hpend with h | h <;>
        · rw [hkey, h] at hcond
          exact absurd hcond.1 (by decide)
    · rw [if_neg hcond] at hcpeq
      exact Option.noConfusion hcpeq
  · intro code p order_no hp hstat hsize hsell
    have hks : kill_step sell code p = kill_update p order_no p.size := by
      unfold kill_step kill_outcome
      rw [hsell]
    have hmem := List.mem_map_of_mem (fun cp =>
        if cp.2.status = "IN_POSITION" ∧ 0 < cp.2.size then
          (cp.1, kill_step sell cp.1 cp.2) else cp) hp
    simp only at hmem ⊢
    rw [if_pos ⟨hstat, hsize⟩] at hmem
    rwa [hks] at hmem

/-- The S6 ledger: A and B held (sizes 10 and 20), C already pending exit. -/
def demo_kill_positions : List (String × Position) :=
  [("A", { stk_cd := "A", status := "IN_POSITION", entry_price := some 100,
           size := 10 }),
   ("B", { stk_cd := "B", status := "IN_POSITION", entry_price := some 200,
           size := 20 }),
   ("C", { stk_cd := "C", status := "PENDING_EXIT", order_no := some "0009",
           entry_price := some 300, size := 5, original_size_before_exit := 5 })]

/-- The liquidation gateway of the concrete scenario: accept everything. -/
def demo_sell : String → Int → Option String := fun code _ => some (code ++ "-S1")

/-- C3 witness: on the S6 ledger the kill switch sends sell orders for A (10)
and B (20) only and marks the engine KILLED. -/
theorem C3_kill_switch_behavior_witness :
    (demo_kill_positions.map Prod.fst).Nodup
    ∧ (execute_kill_switch demo_sell "RUNNING" false demo_kill_positions).orders
        = [("A", 10), ("B", 20)]
    ∧ (execute_kill_switch demo_sell "RUNNING" false demo_kill_positions).engine_status
        = "KILLED" := by
  refine ⟨by decide, ?_,
    (C3_kill_switch_behavior demo_sell demo_kill_positions (by decide)).2.2.2.2.1⟩
  rw [(C3_kill_switch_behavior demo_sell demo_kill_positions (by decide)).1]
  decide
